import Mathlib

/-!
Shallow embedding of the EcommerceShop Flask application (src/app.py) and
verification of the frozen claims about its cart, checkout and registration
logic.

Modelling conventions:
* Python `float` prices and totals are modelled as `ℚ` (the arithmetic the
  routes perform — products and running sums — is carried out exactly).
* The session cart `{product_id: qty}` is a Python dict whose keys are
  strings; it is modelled as an insertion-ordered association list
  `List (String × Int)` with dict-style get / set / pop operations, which
  matches dict semantics as long as keys are not duplicated (Python dicts
  never duplicate keys, and every operation below preserves that).
* Python `int(s)` on a form string is modelled by `pyInt`, returning `none`
  where CPython raises `ValueError`.
* Exceptions that escape a route (ValueError, the 404 abort of
  `get_or_404`, a database failure on `commit`) are modelled with
  `Except AppError` / an explicit outcome constructor.
-/

namespace EcommerceShop

/-- Failures surfaced by the routes of `src/app.py`: an uncaught Python
`ValueError` (from `int(...)` on a malformed string), the 404 abort of
`Product.query.get_or_404`, and a database error raised by
`db.session.commit()`. -/
inductive AppError
  | valueError
  | notFound
  | dbError
deriving DecidableEq, Repr

/-- Value of a non-empty string of decimal digits. -/
def digitsVal (cs : List Char) : Nat :=
  cs.foldl (fun a c => a * 10 + (c.toNat - 48)) 0

/-- Whether `cs` is a non-empty run of decimal digits. -/
def allDigits (cs : List Char) : Bool :=
  !cs.isEmpty && cs.all (fun c => c.isDigit)

/-- Python `str.strip()` on a character list: drop leading and trailing
whitespace. -/
def pyStrip (cs : List Char) : List Char :=
  ((cs.dropWhile Char.isWhitespace).reverse.dropWhile Char.isWhitespace).reverse

/-- Python `str.strip()`. -/
def pyStripString (s : String) : String := ⟨pyStrip s.data⟩

/-- Python `str.lower()` (character-wise; the repository only handles
ASCII emails). -/
def pyLower (s : String) : String := ⟨s.data.map Char.toLower⟩

/-- Model of CPython `int(s)` on a string: surrounding whitespace is
stripped, an optional single sign precedes a non-empty run of decimal
digits; every other string raises `ValueError`, modelled as `none`. -/
def pyInt (s : String) : Option Int :=
  match pyStrip s.data with
  | '+' :: rest => if allDigits rest then some (digitsVal rest : Int) else none
  | '-' :: rest => if allDigits rest then some (-(digitsVal rest : Int)) else none
  | cs => if allDigits cs then some (digitsVal cs : Int) else none

/-- `Product` row of `src/app.py` (id is the integer primary key, price a
float modelled as `ℚ`). -/
structure Product where
  id : Nat
  title : String
  description : String
  price : ℚ
  image_url : Option String
  category_id : Option Nat
deriving DecidableEq, Repr

/-- Primary-key lookup into the products table: both
`Product.query.get(pid)` and the dict `by_id = {p.id: p}` built in
`cart_items` resolve an integer id to the unique row carrying it. -/
def findProduct (catalog : List Product) (i : Int) : Option Product :=
  catalog.find? (fun p => (p.id : Int) == i)

/-- The session cart `session["cart"]`, a Python dict
`{product_id (str): qty (int)}`, as an insertion-ordered association
list. -/
abbrev Cart := List (String × Int)

/-- Python `cart.get(k)` / `cart[k]` read: first (only) binding of `k`. -/
def dictGet (c : Cart) (k : String) : Option Int :=
  (c.find? (fun e => e.1 == k)).map (fun e => e.2)

/-- Python `cart[k] = v`: overwrite in place when `k` is present (keeping
its position, as dicts do), else append a new binding. -/
def dictSet : Cart → String → Int → Cart
  | [], k, v => [(k, v)]
  | e :: rest, k, v => if e.1 == k then (k, v) :: rest else e :: dictSet rest k v

/-- Python `cart.pop(k, None)`: drop the binding of `k` when present. -/
def dictPop : Cart → String → Cart
  | [], _ => []
  | e :: rest, k => if e.1 == k then rest else e :: dictPop rest k

/-- One priced line of the cart page: the dict
`{"product": p, "qty": qty, "line_total": p.price * qty}` built by
`cart_items`. -/
structure CartItem where
  product : Product
  qty : Int
  line_total : ℚ
deriving DecidableEq, Repr

/-- The `for pid, qty in c.items()` loop of `cart_items`: each key is
re-parsed with `int(pid)` (which succeeded already when the `ids` list was
built), looked up in `by_id`; misses are skipped (`if not p: continue`),
hits append a line item and add `p.price * qty` to the running total. -/
def cartLoop (catalog : List Product) : Cart → List CartItem × ℚ
  | [] => ([], 0)
  | (pid, qty) :: rest =>
    match (pyInt pid).bind (findProduct catalog) with
    | none => cartLoop catalog rest
    | some p =>
      let lt := p.price * (qty : ℚ)
      let r := cartLoop catalog rest
      (⟨p, qty, lt⟩ :: r.1, lt + r.2)

/-- `cart_items()` of `src/app.py`: `ids = [int(pid) for pid in c.keys()]`
raises `ValueError` as soon as any key fails to parse; otherwise the loop
produces the line items (in cart insertion order) and the float total. -/
def cart_items (c : Cart) (catalog : List Product) :
    Except AppError (List CartItem × ℚ) :=
  if c.all (fun e => (pyInt e.1).isSome) then Except.ok (cartLoop catalog c)
  else Except.error AppError.valueError

/-- `int(request.form.get("qty", 1))`: a missing field defaults to the
integer 1, a present field is parsed by `int(...)` and raises
`ValueError` when malformed. -/
def parseQtyField : Option String → Except AppError Int
  | none => Except.ok 1
  | some s =>
    match pyInt s with
    | some i => Except.ok i
    | none => Except.error AppError.valueError

/-- POST `/add-to-cart/<pid>`: parse the `qty` field, 404 on an unknown
product id, then `cart[str(pid)] = cart.get(str(pid), 0) + max(1, qty)`.
Any error leaves the session cart untouched. -/
def add_to_cart (catalog : List Product) (pid : Nat) (qtyField : Option String)
    (cart : Cart) : Except AppError Cart :=
  match parseQtyField qtyField with
  | Except.error e => Except.error e
  | Except.ok qty =>
    match findProduct catalog (pid : Int) with
    | none => Except.error AppError.notFound
    | some _ =>
      Except.ok (dictSet cart (toString pid)
        ((dictGet cart (toString pid)).getD 0 + max 1 qty))

/-- POST `/cart` with `action == "update"` (the `pid` form field is taken as
given): `qty = max(0, int(request.form.get("qty", 1)))`; `qty == 0` pops the
key, otherwise the quantity is set (not incremented). The product id is
never validated against the catalog. -/
def cart_update (pid : String) (qtyField : Option String) (cart : Cart) :
    Except AppError Cart :=
  match parseQtyField qtyField with
  | Except.error e => Except.error e
  | Except.ok q =>
    let qty := max 0 q
    if qty == 0 then Except.ok (dictPop cart pid)
    else Except.ok (dictSet cart pid qty)

/-- POST `/cart` with `action == "clear"`: `session["cart"] = {}`. -/
def cart_clear : Cart := []

/-- One record of the `items_json` snapshot:
`{"product_id": ..., "title": ..., "qty": ..., "price": ...}`. -/
structure OrderItem where
  product_id : Nat
  title : String
  qty : Int
  price : ℚ
deriving DecidableEq, Repr

/-- `Order` row of `src/app.py`; the JSON text column `items_json` is
modelled as the list of records it serialises. -/
structure Order where
  id : Nat
  user_id : Option Nat
  items_json : List OrderItem
  total : ℚ
deriving DecidableEq, Repr

/-- Outcome of a POST to `/checkout`: the empty-cart flash + redirect, the
success flash reporting `order.id`, or an exception escaping the route. -/
inductive CheckoutOutcome
  | emptyCartWarning
  | placed (orderId : Nat)
  | serverError (e : AppError)
deriving DecidableEq, Repr

/-- POST `/checkout` of `src/app.py`. `commitOk` models whether
`db.session.commit()` succeeds; `nextId` is the primary key the database
assigns to the inserted row. On the empty-cart path nothing is touched; on
the success path the order is persisted and only then is
`session["cart"] = {}` executed; a commit failure raises before the cart is
cleared, leaving both the orders table and the cart as they were. -/
def checkout_post (catalog : List Product) (user : Option Nat) (commitOk : Bool)
    (nextId : Nat) (orders : List Order) (cart : Cart) :
    CheckoutOutcome × List Order × Cart :=
  match cart_items cart catalog with
  | Except.error e => (CheckoutOutcome.serverError e, orders, cart)
  | Except.ok (items, total) =>
    if items.isEmpty then (CheckoutOutcome.emptyCartWarning, orders, cart)
    else
      let order_items := items.map (fun it =>
        OrderItem.mk it.product.id it.product.title it.qty it.product.price)
      let order : Order := ⟨nextId, user, order_items, total⟩
      if commitOk then (CheckoutOutcome.placed nextId, orders ++ [order], [])
      else (CheckoutOutcome.serverError AppError.dbError, orders, cart)

/-- `User` row of `src/app.py`; `password_hash` holds the bcrypt digest. -/
structure User where
  id : Nat
  name : String
  email : String
  password_hash : String
deriving DecidableEq, Repr

/-- Outcome of a POST to `/register`: the duplicate-email flash + redirect,
or the success redirect after the new user's row is committed. -/
inductive RegisterOutcome
  | duplicateWarning
  | registered (userId : Nat)
deriving DecidableEq, Repr

/-- POST `/register` of `src/app.py`: `name.strip()`,
`email.lower().strip()`; `User.query.filter_by(email=email).first()`
guards duplicates (exact match against stored emails); otherwise a `User`
is created whose `password_hash` is the digest produced by the opaque
hashing capability `hashFn` (bcrypt), and committed. `nextId` is the
primary key the database assigns. -/
def register (users : List User) (name email password : String)
    (hashFn : String → String) (nextId : Nat) : RegisterOutcome × List User :=
  let name2 := pyStripString name
  let email2 := pyStripString (pyLower email)
  if users.any (fun u => u.email == email2) then
    (RegisterOutcome.duplicateWarning, users)
  else
    (RegisterOutcome.registered nextId,
     users ++ [⟨nextId, name2, email2, hashFn password⟩])

/-- The three session-cart mutations the routes perform. -/
inductive CartOp
  | add (pid : Nat) (qtyField : Option String)
  | update (pid : String) (qtyField : Option String)
  | clear

/-- Effect of one route invocation on the session cart: an error escaping
the route happens before (add, update) any mutation, so the cart is
unchanged. -/
def applyOp (catalog : List Product) (op : CartOp) (c : Cart) : Cart :=
  match op with
  | CartOp.add pid q =>
    match add_to_cart catalog pid q c with
    | Except.ok c2 => c2
    | Except.error _ => c
  | CartOp.update pid q =>
    match cart_update pid q c with
    | Except.ok c2 => c2
    | Except.error _ => c
  | CartOp.clear => cart_clear

/-- Carts reachable from the fresh session cart `{}` by any sequence of
route invocations (against any catalog states). -/
inductive ReachableCart : Cart → Prop
  | empty : ReachableCart []
  | step (catalog : List Product) (op : CartOp) (c : Cart) :
      ReachableCart c → ReachableCart (applyOp catalog op c)

/-- The line item (if any) a single cart entry contributes: its key parsed
by `int(...)` and resolved in the catalog. -/
def lineOf (catalog : List Product) (e : String × Int) : Option CartItem :=
  ((pyInt e.1).bind (findProduct catalog)).map
    (fun p => ⟨p, e.2, p.price * (e.2 : ℚ)⟩)

/-- A concrete catalog row, used to instantiate theorems on closed
inputs. -/
def widget : Product := ⟨5, "Widget", "A widget.", 100, none, none⟩

/-- A one-row concrete catalog. -/
def K5 : List Product := [widget]

/-- A concrete stand-in for the opaque bcrypt hashing capability. -/
def hashDemo (p : String) : String := String.append "bcrypt$" p

end EcommerceShop

namespace EcommerceShop

/-! ### Dictionary lemmas: `dictGet` / `dictSet` / `dictPop` -/

theorem dictGet_eq_none_of_not_mem {c : Cart} {k : String}
    (h : k ∉ c.map Prod.fst) : dictGet c k = none := by
  induction c with
  | nil => rfl
  | cons e rest ih =>
    simp only [List.map_cons, List.mem_cons, not_or] at h
    have hne : (e.1 == k) = false := by
      simp [beq_iff_eq]
      exact fun he => h.1 he.symm
    simp only [dictGet, List.find?_cons, hne]
    exact ih h.2

theorem dictGet_cons_of_ne {e : String × Int} {rest : Cart} {k : String}
    (h : (e.1 == k) = false) : dictGet (e :: rest) k = dictGet rest k := by
  simp only [dictGet, List.find?_cons, h]

theorem dictGet_dictSet_self (c : Cart) (k : String) (v : Int) :
    dictGet (dictSet c k v) k = some v := by
  induction c with
  | nil => simp [dictSet, dictGet, List.find?_cons]
  | cons e rest ih =>
    cases hb : (e.1 == k) with
    | true =>
      rw [dictSet, hb, if_pos rfl, dictGet, List.find?_cons]
      simp
    | false =>
      rw [dictSet, hb, if_neg (by simp), dictGet_cons_of_ne hb]
      exact ih

theorem dictSet_fresh {c : Cart} {k : String} (v : Int)
    (h : dictGet c k = none) : dictSet c k v = c ++ [(k, v)] := by
  induction c with
  | nil => rfl
  | cons e rest ih =>
    cases hb : (e.1 == k) with
    | true =>
      rw [dictGet, List.find?_cons, hb] at h
      simp at h
    | false =>
      rw [dictGet_cons_of_ne hb] at h
      rw [dictSet, hb, if_neg (by simp), ih h, List.cons_append]

theorem dictPop_append_fresh {c : Cart} {k : String} (v : Int)
    (h : dictGet c k = none) : dictPop (c ++ [(k, v)]) k = c := by
  induction c with
  | nil => simp [dictPop]
  | cons e rest ih =>
    cases hb : (e.1 == k) with
    | true =>
      rw [dictGet, List.find?_cons, hb] at h
      simp at h
    | false =>
      rw [dictGet_cons_of_ne hb] at h
      rw [List.cons_append, dictPop, hb, if_neg (by simp), ih h]

theorem mem_dictSet {c : Cart} {k : String} {v : Int} {e : String × Int}
    (h : e ∈ dictSet c k v) : e ∈ c ∨ e = (k, v) := by
  induction c with
  | nil => simpa [dictSet] using h
  | cons a rest ih =>
    cases hb : (a.1 == k) with
    | true =>
      rw [dictSet, hb, if_pos rfl] at h
      rcases List.mem_cons.1 h with h | h
      · exact Or.inr h
      · exact Or.inl (List.mem_cons_of_mem a h)
    | false =>
      rw [dictSet, hb, if_neg (by simp)] at h
      rcases List.mem_cons.1 h with h | h
      · exact Or.inl (h ▸ List.mem_cons_self a rest)
      · rcases ih h with h2 | h2
        · exact Or.inl (List.mem_cons_of_mem a h2)
        · exact Or.inr h2

theorem mem_dictPop {c : Cart} {k : String} {e : String × Int}
    (h : e ∈ dictPop c k) : e ∈ c := by
  induction c with
  | nil => simp [dictPop] at h
  | cons a rest ih =>
    cases hb : (a.1 == k) with
    | true =>
      rw [dictPop, hb, if_pos rfl] at h
      exact List.mem_cons_of_mem a h
    | false =>
      rw [dictPop, hb] at h
      simp only [Bool.false_eq_true, if_false, List.mem_cons] at h
      rcases h with h | h
      · exact h ▸ List.mem_cons_self a rest
      · exact List.mem_cons_of_mem a (ih h)

theorem mem_keys_dictSet {c : Cart} {k : String} {v : Int} {x : String}
    (h : x ∈ (dictSet c k v).map Prod.fst) :
    x ∈ c.map Prod.fst ∨ x = k := by
  simp only [List.mem_map] at h
  rcases h with ⟨e, he, hx⟩
  rcases mem_dictSet he with h2 | h2
  · exact Or.inl (List.mem_map.2 ⟨e, h2, hx⟩)
  · subst h2; exact Or.inr hx.symm

theorem keys_dictSet_nodup {c : Cart} (k : String) (v : Int)
    (h : (c.map Prod.fst).Nodup) :
    ((dictSet c k v).map Prod.fst).Nodup := by
  induction c with
  | nil => simp [dictSet]
  | cons a rest ih =>
    simp only [List.map_cons, List.nodup_cons] at h
    cases hb : (a.1 == k) with
    | true =>
      have hk : a.1 = k := by simpa [beq_iff_eq] using hb
      rw [dictSet, hb, if_pos rfl]
      simp only [List.map_cons, List.nodup_cons]
      exact ⟨hk ▸ h.1, h.2⟩
    | false =>
      have hk : a.1 ≠ k := by simpa [beq_iff_eq] using hb
      rw [dictSet, hb, if_neg (by simp)]
      simp only [List.map_cons, List.nodup_cons]
      refine ⟨fun hmem => ?_, ih h.2⟩
      rcases mem_keys_dictSet hmem with h2 | h2
      · exact h.1 h2
      · exact hk h2

theorem keys_dictPop_nodup {c : Cart} (k : String)
    (h : (c.map Prod.fst).Nodup) :
    ((dictPop c k).map Prod.fst).Nodup := by
  induction c with
  | nil => simp [dictPop]
  | cons a rest ih =>
    simp only [List.map_cons, List.nodup_cons] at h
    cases hb : (a.1 == k) with
    | true =>
      rw [dictPop, hb, if_pos rfl]
      exact h.2
    | false =>
      rw [dictPop, hb]
      simp only [Bool.false_eq_true, if_false, List.map_cons, List.nodup_cons]
      refine ⟨fun hmem => ?_, ih h.2⟩
      rcases List.mem_map.1 hmem with ⟨e, he, hx⟩
      exact h.1 (List.mem_map.2 ⟨e, mem_dictPop he, hx⟩)

theorem dictGet_dictPop_none {c : Cart} (k : String)
    (h : (c.map Prod.fst).Nodup) :
    dictGet (dictPop c k) k = none := by
  induction c with
  | nil => rfl
  | cons a rest ih =>
    simp only [List.map_cons, List.nodup_cons] at h
    cases hb : (a.1 == k) with
    | true =>
      have hk : a.1 = k := by simpa [beq_iff_eq] using hb
      rw [dictPop, hb, if_pos rfl]
      exact dictGet_eq_none_of_not_mem (hk ▸ h.1)
    | false =>
      rw [dictPop, hb]
      simp only [Bool.false_eq_true, if_false]
      rw [dictGet_cons_of_ne hb]
      exact ih h.2

theorem dictGet_mem {c : Cart} {k : String} {x : Int}
    (h : dictGet c k = some x) : ∃ e ∈ c, e.2 = x := by
  unfold dictGet at h
  cases hf : c.find? (fun e => e.1 == k) with
  | none => rw [hf] at h; cases h
  | some e =>
    rw [hf] at h
    have h2 : e.2 = x := by injection h
    exact ⟨e, List.mem_of_find?_eq_some hf, h2⟩

end EcommerceShop

namespace EcommerceShop

/-! ### Catalog and cart-loop lemmas -/

theorem findProduct_id {K : List Product} {i : Int} {p : Product}
    (h : findProduct K i = some p) : (p.id : Int) = i := by
  have h2 := List.find?_some h
  exact eq_of_beq h2

theorem findProduct_self {K : List Product} {i : Int} {p : Product}
    (h : findProduct K i = some p) : findProduct K (p.id : Int) = some p := by
  rw [findProduct_id h]
  exact h

theorem cartLoop_eq (K : List Product) (c : Cart) :
    cartLoop K c
      = (c.filterMap (lineOf K),
         ((c.filterMap (lineOf K)).map (fun it => it.line_total)).sum) := by
  induction c with
  | nil => simp [cartLoop]
  | cons e rest ih =>
    obtain ⟨pid, qty⟩ := e
    cases hb : (pyInt pid).bind (findProduct K) with
    | none => simp [cartLoop, lineOf, hb, ih]
    | some p => simp [cartLoop, lineOf, hb, ih]

theorem cartLoop_total (K : List Product) (c : Cart) :
    (cartLoop K c).2 = ((cartLoop K c).1.map (fun it => it.line_total)).sum := by
  rw [cartLoop_eq]

theorem cartLoop_mem (K : List Product) (c : Cart) :
    ∀ it ∈ (cartLoop K c).1,
      findProduct K (it.product.id : Int) = some it.product
      ∧ it.line_total = it.product.price * (it.qty : ℚ) := by
  induction c with
  | nil => intro it h; simp [cartLoop] at h
  | cons e rest ih =>
    obtain ⟨pid, qty⟩ := e
    intro it h
    cases hb : (pyInt pid).bind (findProduct K) with
    | none =>
      rw [cartLoop, hb] at h
      exact ih it h
    | some p =>
      rw [cartLoop, hb] at h
      rcases List.mem_cons.1 h with h | h
      · subst h
        rcases Option.bind_eq_some.1 hb with ⟨i, _, hfp⟩
        exact ⟨findProduct_self hfp, rfl⟩
      · exact ih it h

theorem cart_items_ok {c : Cart} (K : List Product)
    (h : ∀ e ∈ c, (pyInt e.1).isSome) :
    cart_items c K = Except.ok (cartLoop K c) := by
  have hall : (c.all fun e => (pyInt e.1).isSome) = true :=
    List.all_eq_true.2 h
  rw [cart_items, if_pos hall]

/-! ### Route-level helper lemmas -/

theorem cart_update_zero (pid : String) (c : Cart) :
    cart_update pid (some "0") c = Except.ok (dictPop c pid) := rfl

theorem checkout_post_ok (K : List Product) (user : Option Nat)
    (commitOk : Bool) (nextId : Nat) (orders : List Order) (cart : Cart)
    (hkeys : ∀ e ∈ cart, (pyInt e.1).isSome)
    (hne : (cartLoop K cart).1 ≠ []) :
    checkout_post K user commitOk nextId orders cart
      = if commitOk then
          (CheckoutOutcome.placed nextId,
           orders ++ [⟨nextId, user,
              (cartLoop K cart).1.map (fun it =>
                OrderItem.mk it.product.id it.product.title it.qty
                  it.product.price),
              (cartLoop K cart).2⟩],
           [])
        else (CheckoutOutcome.serverError AppError.dbError, orders, cart) := by
  rw [checkout_post, cart_items_ok K hkeys]
  rcases hcl : cartLoop K cart with ⟨its, tot⟩
  rw [hcl] at hne
  simp only at hne
  have hie : its.isEmpty = false := by
    cases its with
    | nil => exact absurd rfl hne
    | cons a l => rfl
  simp only [hie, Bool.false_eq_true, if_false]

end EcommerceShop

namespace EcommerceShop

/-! ### Claim theorems -/

/-- C1: for every cart mapping (product-id string → quantity) and catalog,
`cart_items` returns the line items of exactly those entries whose id
resolves in the catalog (stale ids silently skipped, contributing nothing),
and a total equal to the sum of `p.price * qty` over the resolving entries;
in particular the empty cart yields `([], 0)`. -/
theorem cart_items_total_spec (c : Cart) (K : List Product)
    (h : ∀ e ∈ c, (pyInt e.1).isSome) :
    cart_items c K = Except.ok
      (c.filterMap (lineOf K),
       (c.filterMap (fun e => ((pyInt e.1).bind (findProduct K)).map
          (fun p => p.price * (e.2 : ℚ)))).sum) := by
  rw [cart_items_ok K h, cartLoop_eq]
  have hfun : (fun e => (lineOf K e).map (fun it => it.line_total))
      = fun e : String × Int => ((pyInt e.1).bind (findProduct K)).map
          (fun p => p.price * (e.2 : ℚ)) := by
    funext e
    cases hb : (pyInt e.1).bind (findProduct K) <;> simp [lineOf, hb]
  rw [List.map_filterMap, hfun]

/-- Witness for C1 at the concrete cart `{"5": 2, "9": 1}` against the
one-product catalog `K5` (product 9 is stale). -/
theorem cart_items_total_spec_witness :
    (∀ e ∈ ([("5", 2), ("9", 1)] : Cart), (pyInt e.1).isSome)
    ∧ cart_items [("5", 2), ("9", 1)] K5 = Except.ok
      (([("5", 2), ("9", 1)] : Cart).filterMap (lineOf K5),
       (([("5", 2), ("9", 1)] : Cart).filterMap
          (fun e => ((pyInt e.1).bind (findProduct K5)).map
            (fun p => p.price * (e.2 : ℚ)))).sum) :=
  ⟨by decide, cart_items_total_spec [("5", 2), ("9", 1)] K5 (by decide)⟩

/-- C2: a checkout POST whose resolved item list is empty (empty cart, or
every id stale) flashes the empty-cart warning, creates no `Order`, and
leaves the cart mapping unchanged. -/
theorem checkout_empty_cart_no_order (K : List Product) (user : Option Nat)
    (commitOk : Bool) (nextId : Nat) (orders : List Order) (cart : Cart)
    (hkeys : ∀ e ∈ cart, (pyInt e.1).isSome)
    (hempty : (cartLoop K cart).1 = []) :
    checkout_post K user commitOk nextId orders cart
      = (CheckoutOutcome.emptyCartWarning, orders, cart) := by
  rw [checkout_post, cart_items_ok K hkeys]
  rcases hcl : cartLoop K cart with ⟨its, tot⟩
  rw [hcl] at hempty
  simp only at hempty
  subst hempty
  rfl

/-- Witness for C2: cart `{"9": 1}` whose only id is stale in `K5`. -/
theorem checkout_empty_cart_no_order_witness :
    (∀ e ∈ ([("9", 1)] : Cart), (pyInt e.1).isSome)
    ∧ (cartLoop K5 [("9", 1)]).1 = []
    ∧ checkout_post K5 none true 1 [] [("9", 1)]
        = (CheckoutOutcome.emptyCartWarning, [], [("9", 1)]) :=
  ⟨by decide, rfl,
   checkout_empty_cart_no_order K5 none true 1 [] [("9", 1)] (by decide) rfl⟩

/-- C3: on a non-empty resolved cart, checkout persists the order and only
then clears the cart, reporting the new order's id; when persistence
(`db.session.commit()`) fails, the exception propagates before the cart is
touched, so both the orders table and the cart are unchanged and the
checkout can be retried. -/
theorem checkout_persist_then_clear (K : List Product) (user : Option Nat)
    (nextId : Nat) (orders : List Order) (cart : Cart)
    (hkeys : ∀ e ∈ cart, (pyInt e.1).isSome)
    (hne : (cartLoop K cart).1 ≠ []) :
    checkout_post K user true nextId orders cart
      = (CheckoutOutcome.placed nextId,
         orders ++ [⟨nextId, user,
            (cartLoop K cart).1.map (fun it =>
              OrderItem.mk it.product.id it.product.title it.qty
                it.product.price),
            (cartLoop K cart).2⟩],
         [])
    ∧ checkout_post K user false nextId orders cart
      = (CheckoutOutcome.serverError AppError.dbError, orders, cart) := by
  constructor
  · rw [checkout_post_ok K user true nextId orders cart hkeys hne, if_pos rfl]
  · rw [checkout_post_ok K user false nextId orders cart hkeys hne]
    rfl

/-- Witness for C3 at cart `{"5": 2}` against `K5`. -/
theorem checkout_persist_then_clear_witness :
    (∀ e ∈ ([("5", 2)] : Cart), (pyInt e.1).isSome)
    ∧ (cartLoop K5 [("5", 2)]).1 ≠ []
    ∧ (checkout_post K5 none true 1 [] [("5", 2)]
        = (CheckoutOutcome.placed 1,
           [] ++ [⟨1, none,
              (cartLoop K5 [("5", 2)]).1.map (fun it =>
                OrderItem.mk it.product.id it.product.title it.qty
                  it.product.price),
              (cartLoop K5 [("5", 2)]).2⟩],
           [])
      ∧ checkout_post K5 none false 1 [] [("5", 2)]
        = (CheckoutOutcome.serverError AppError.dbError, [], [("5", 2)])) :=
  ⟨by decide, by decide,
   checkout_persist_then_clear K5 none 1 [] [("5", 2)] (by decide) (by decide)⟩

/-- C4: every `Order` checkout creates carries a total equal to the sum of
`qty * price` over its own item snapshots, and every snapshot's price (and
title) is the server-side catalog value for its product id at checkout
time — no client-supplied value enters the computation. -/
theorem order_total_invariant (K : List Product) (user : Option Nat)
    (nextId : Nat) (orders : List Order) (cart : Cart)
    (hkeys : ∀ e ∈ cart, (pyInt e.1).isSome)
    (hne : (cartLoop K cart).1 ≠ []) :
    ∃ o : Order,
      (checkout_post K user true nextId orders cart).2.1 = orders ++ [o]
      ∧ o.total = (o.items_json.map (fun it => it.price * (it.qty : ℚ))).sum
      ∧ ∀ it ∈ o.items_json, ∃ p : Product,
          findProduct K (it.product_id : Int) = some p
          ∧ it.price = p.price ∧ it.title = p.title := by
  refine ⟨⟨nextId, user,
      (cartLoop K cart).1.map (fun it =>
        OrderItem.mk it.product.id it.product.title it.qty it.product.price),
      (cartLoop K cart).2⟩, ?_, ?_, ?_⟩
  · rw [checkout_post_ok K user true nextId orders cart hkeys hne, if_pos rfl]
  · show (cartLoop K cart).2 = _
    rw [cartLoop_total, List.map_map]
    apply congrArg List.sum
    apply List.map_congr_left
    intro it hit
    have h2 := (cartLoop_mem K cart it hit).2
    simpa using h2
  · intro s hs
    rcases List.mem_map.1 hs with ⟨it, hit, hsnap⟩
    have h1 := (cartLoop_mem K cart it hit).1
    subst hsnap
    exact ⟨it.product, h1, rfl, rfl⟩

/-- Witness for C4 at cart `{"5": 2}` against `K5`. -/
theorem order_total_invariant_witness :
    (∀ e ∈ ([("5", 2)] : Cart), (pyInt e.1).isSome)
    ∧ (cartLoop K5 [("5", 2)]).1 ≠ []
    ∧ ∃ o : Order,
        (checkout_post K5 none true 1 [] [("5", 2)]).2.1 = [] ++ [o]
        ∧ o.total = (o.items_json.map (fun it => it.price * (it.qty : ℚ))).sum
        ∧ ∀ it ∈ o.items_json, ∃ p : Product,
            findProduct K5 (it.product_id : Int) = some p
            ∧ it.price = p.price ∧ it.title = p.title :=
  ⟨by decide, by decide,
   order_total_invariant K5 none 1 [] [("5", 2)] (by decide) (by decide)⟩

end EcommerceShop

namespace EcommerceShop

/-- C5 (the code, evaluated at the failing input): a non-numeric `qty` form
field makes both the add-to-cart route and the cart-update route raise
`ValueError` from `int(...)` — there is no clamp, no warning, and no
handler, so the exception escapes as an unhandled server failure, contrary
to the spec's `ValidationError` contract. -/
theorem malformed_qty_unhandled :
    add_to_cart K5 5 (some "abc") [("5", 1)] = Except.error AppError.valueError
    ∧ cart_update "5" (some "abc") [("5", 1)]
        = Except.error AppError.valueError :=
  ⟨rfl, rfl⟩

/-- C6 is false as stated: starting from the prior cart `{"5": 2}`, adding
product 5 (qty 3) yields `{"5": 5}`, and updating it to 0 pops the key
entirely, returning `{}` — not the prior `{"5": 2}`. -/
theorem add_update_zero_counterexample :
    add_to_cart K5 5 (some "3") [("5", 2)] = Except.ok [("5", 5)]
    ∧ cart_update "5" (some "0") [("5", 5)] = Except.ok []
    ∧ ([] : Cart) ≠ [("5", 2)] :=
  ⟨rfl, rfl, by decide⟩

/-- C6 (amended): for every cart in which the product is **not already
present**, add followed by update-to-0 returns the cart to exactly its
prior state, leaving no zero-quantity entry for the product. -/
theorem add_update_zero_restores (K : List Product) (pid : Nat) (p : Product)
    (s : String) (q : Int) (cart : Cart)
    (hp : findProduct K (pid : Int) = some p)
    (hq : pyInt s = some q)
    (hfresh : dictGet cart (toString pid) = none) :
    ∃ c2, add_to_cart K pid (some s) cart = Except.ok c2
      ∧ cart_update (toString pid) (some "0") c2 = Except.ok cart := by
  have hstep : add_to_cart K pid (some s) cart
      = Except.ok (dictSet cart (toString pid)
          ((dictGet cart (toString pid)).getD 0 + max 1 q)) := by
    simp only [add_to_cart, parseQtyField, hq, hp]
  refine ⟨_, hstep, ?_⟩
  rw [cart_update_zero, dictSet_fresh _ hfresh, dictPop_append_fresh _ hfresh]

/-- Witness for the amended C6: prior cart `{"7": 1}` (product 5 absent),
add product 5 qty 3, then update `"5"` to 0. -/
theorem add_update_zero_restores_witness :
    findProduct K5 ((5 : Nat) : Int) = some widget
    ∧ pyInt "3" = some 3
    ∧ dictGet [("7", 1)] (toString (5 : Nat)) = none
    ∧ ∃ c2, add_to_cart K5 5 (some "3") [("7", 1)] = Except.ok c2
        ∧ cart_update (toString (5 : Nat)) (some "0") c2
            = Except.ok [("7", 1)] :=
  ⟨rfl, rfl, by decide,
   add_update_zero_restores K5 5 widget "3" 3 [("7", 1)] rfl rfl (by decide)⟩

/-- C7: `add_to_cart` parses the quantity, then stores
`existing + max(1, qty)` when the product id is already a cart key and
inserts a fresh entry with quantity `max(1, qty)` otherwise — so any
`qty ≤ 0` is clamped to a minimum contribution of 1. -/
theorem add_to_cart_clamps (K : List Product) (pid : Nat) (p : Product)
    (s : String) (q : Int) (cart : Cart)
    (hp : findProduct K (pid : Int) = some p)
    (hq : pyInt s = some q) :
    ∃ c2, add_to_cart K pid (some s) cart = Except.ok c2
      ∧ (∀ x, dictGet cart (toString pid) = some x →
            dictGet c2 (toString pid) = some (x + max 1 q))
      ∧ (dictGet cart (toString pid) = none →
            c2 = cart ++ [(toString pid, max 1 q)]) := by
  have hstep : add_to_cart K pid (some s) cart
      = Except.ok (dictSet cart (toString pid)
          ((dictGet cart (toString pid)).getD 0 + max 1 q)) := by
    simp only [add_to_cart, parseQtyField, hq, hp]
  refine ⟨_, hstep, fun x hx => ?_, fun hn => ?_⟩
  · rw [hx]
    exact dictGet_dictSet_self cart (toString pid) _
  · rw [hn]
    have hv : ((none : Option Int).getD 0) + max 1 q = max 1 q := by simp
    rw [hv]
    exact dictSet_fresh _ hn

/-- Witness for C7: the spec's scenario — adding fresh product 5 with
qty −3 stores quantity `max 1 (−3) = 1`. -/
theorem add_to_cart_clamps_witness :
    findProduct K5 ((5 : Nat) : Int) = some widget
    ∧ pyInt "-3" = some (-3)
    ∧ ∃ c2, add_to_cart K5 5 (some "-3") [] = Except.ok c2
        ∧ (∀ x, dictGet [] (toString (5 : Nat)) = some x →
              dictGet c2 (toString (5 : Nat)) = some (x + max 1 (-3)))
        ∧ (dictGet [] (toString (5 : Nat)) = none →
              c2 = [] ++ [(toString (5 : Nat), max 1 (-3))]) :=
  ⟨rfl, rfl, add_to_cart_clamps K5 5 widget "-3" (-3) [] rfl rfl⟩

/-- C10 (implicit): the cart-update action with `qty > 0` is insert-or-set:
for a product-id string not currently in the cart it inserts a brand-new
entry `cart[pid] = qty` without any catalog lookup (`cart_update` never
consults a catalog — note its signature), whereas `add_to_cart` 404s on an
unknown product id before touching the cart. -/
theorem update_inserts_unchecked_add_404 :
    (∀ (cart : Cart) (pid s : String) (q : Int),
        pyInt s = some q → 0 < q → dictGet cart pid = none →
        cart_update pid (some s) cart = Except.ok (cart ++ [(pid, q)]))
    ∧ (∀ (K : List Product) (pid : Nat) (s : String) (q : Int) (cart : Cart),
        pyInt s = some q → findProduct K (pid : Int) = none →
        add_to_cart K pid (some s) cart = Except.error AppError.notFound) := by
  constructor
  · intro cart pid s q hq hpos hfresh
    have hmax : max 0 q = q := max_eq_right hpos.le
    have hne : (q == 0) = false := by
      simp only [beq_eq_false_iff_ne, ne_eq]
      omega
    simp only [cart_update, parseQtyField, hq, hmax, hne, Bool.false_eq_true,
      if_false]
    rw [dictSet_fresh q hfresh]
  · intro K pid s q cart hq h404
    simp only [add_to_cart, parseQtyField, hq, h404]

/-- Witness for C10: update inserts the never-validated key `"oops"`;
add-to-cart 404s against the empty catalog. -/
theorem update_inserts_unchecked_add_404_witness :
    pyInt "2" = some 2
    ∧ (0 : Int) < 2
    ∧ dictGet [] "oops" = none
    ∧ findProduct [] ((5 : Nat) : Int) = none
    ∧ cart_update "oops" (some "2") [] = Except.ok ([] ++ [("oops", 2)])
    ∧ add_to_cart [] 5 (some "2") [] = Except.error AppError.notFound :=
  ⟨rfl, by decide, rfl, rfl,
   update_inserts_unchecked_add_404.1 [] "oops" "2" 2 rfl (by decide) rfl,
   update_inserts_unchecked_add_404.2 [] 5 "2" 2 [] rfl rfl⟩

end EcommerceShop

namespace EcommerceShop

theorem add_to_cart_ok_shape {K : List Product} {pid : Nat}
    {q : Option String} {c c2 : Cart}
    (h : add_to_cart K pid q c = Except.ok c2) :
    ∃ qty : Int, c2 = dictSet c (toString pid)
        ((dictGet c (toString pid)).getD 0 + max 1 qty) := by
  unfold add_to_cart at h
  cases hpq : parseQtyField q with
  | error e => rw [hpq] at h; cases h
  | ok qty =>
    rw [hpq] at h
    cases hfp : findProduct K (pid : Int) with
    | none => rw [hfp] at h; cases h
    | some p =>
      rw [hfp] at h
      injection h with h
      exact ⟨qty, h.symm⟩

theorem cart_update_ok_shape {pid : String} {q : Option String} {c c2 : Cart}
    (h : cart_update pid q c = Except.ok c2) :
    c2 = dictPop c pid ∨ ∃ qty : Int, 1 ≤ qty ∧ c2 = dictSet c pid qty := by
  unfold cart_update at h
  cases hpq : parseQtyField q with
  | error e => rw [hpq] at h; cases h
  | ok q0 =>
    rw [hpq] at h
    simp only at h
    cases hz : (max 0 q0 == 0) with
    | true =>
      rw [hz, if_pos rfl] at h
      left
      injection h with h
      exact h.symm
    | false =>
      rw [hz, if_neg (by simp)] at h
      right
      have hne : max 0 q0 ≠ 0 := by simpa [beq_iff_eq] using hz
      have h0 : (0 : Int) ≤ max 0 q0 := le_max_left 0 q0
      refine ⟨max 0 q0, by omega, ?_⟩
      injection h with h
      exact h.symm

theorem reachable_inv (c : Cart) (h : ReachableCart c) :
    (∀ e ∈ c, 1 ≤ e.2) ∧ (c.map Prod.fst).Nodup := by
  induction h with
  | empty => exact ⟨by simp, by simp⟩
  | step K op c0 hc ih =>
    obtain ⟨hpos, hnod⟩ := ih
    cases op with
    | add pid q =>
      simp only [applyOp]
      cases ha : add_to_cart K pid q c0 with
      | error e => exact ⟨hpos, hnod⟩
      | ok c2 =>
        obtain ⟨qty, hshape⟩ := add_to_cart_ok_shape ha
        subst hshape
        constructor
        · intro e he
          rcases mem_dictSet he with h2 | h2
          · exact hpos e h2
          · subst h2
            show 1 ≤ (dictGet c0 (toString pid)).getD 0 + max 1 qty
            have h1 : 1 ≤ max 1 qty := le_max_left 1 qty
            cases hg : dictGet c0 (toString pid) with
            | none => simp only [Option.getD_none]; omega
            | some x =>
              have hx : 1 ≤ x := by
                obtain ⟨e0, he0, hv⟩ := dictGet_mem hg
                exact hv ▸ hpos e0 he0
              simp only [Option.getD_some]
              omega
        · exact keys_dictSet_nodup _ _ hnod
    | update pid q =>
      simp only [applyOp]
      cases hu : cart_update pid q c0 with
      | error e => exact ⟨hpos, hnod⟩
      | ok c2 =>
        rcases cart_update_ok_shape hu with h2 | ⟨qty, hq1, h2⟩
        · subst h2
          exact ⟨fun e he => hpos e (mem_dictPop he), keys_dictPop_nodup _ hnod⟩
        · subst h2
          refine ⟨fun e he => ?_, keys_dictSet_nodup _ _ hnod⟩
          rcases mem_dictSet he with h3 | h3
          · exact hpos e h3
          · subst h3; exact hq1
    | clear => exact ⟨by simp [applyOp, cart_clear], by simp [applyOp, cart_clear]⟩

/-- C8: every cart reachable from the empty session cart through the
routes' operations (add, update, clear) keeps all stored quantities ≥ 1;
and on such a cart an update to quantity 0 deletes the key outright —
afterwards the key has no binding at all, rather than a zero entry. -/
theorem cart_invariant_reachable (c : Cart) (h : ReachableCart c) :
    (∀ e ∈ c, 1 ≤ e.2)
    ∧ ∀ pid : String,
        cart_update pid (some "0") c = Except.ok (dictPop c pid)
        ∧ dictGet (dictPop c pid) pid = none := by
  obtain ⟨hpos, hnod⟩ := reachable_inv c h
  exact ⟨hpos,
    fun pid => ⟨cart_update_zero pid c, dictGet_dictPop_none pid hnod⟩⟩

/-- Witness for C8 at the reachable cart obtained by one add of product 5
(qty 2) to the fresh session cart. -/
theorem cart_invariant_reachable_witness :
    ReachableCart (applyOp K5 (CartOp.add 5 (some "2")) [])
    ∧ ((∀ e ∈ applyOp K5 (CartOp.add 5 (some "2")) [], 1 ≤ e.2)
       ∧ ∀ pid : String,
           cart_update pid (some "0") (applyOp K5 (CartOp.add 5 (some "2")) [])
             = Except.ok (dictPop (applyOp K5 (CartOp.add 5 (some "2")) []) pid)
           ∧ dictGet (dictPop (applyOp K5 (CartOp.add 5 (some "2")) []) pid)
               pid = none) :=
  ⟨ReachableCart.step K5 (CartOp.add 5 (some "2")) [] ReachableCart.empty,
   cart_invariant_reachable _
     (ReachableCart.step K5 (CartOp.add 5 (some "2")) [] ReachableCart.empty)⟩

/-- C9: against any user table whose stored emails are in normalized form
(as `register` itself stores them), registration fails with the
duplicate-email warning and changes nothing exactly when the
case-normalized email already exists; otherwise it appends exactly one new
`User` whose stored secret is the one-way digest `hashFn password` — the
raw password is never stored. -/
theorem register_spec (users : List User) (name email password : String)
    (hashFn : String → String) (nextId : Nat)
    (hnorm : ∀ u ∈ users, pyStripString (pyLower u.email) = u.email) :
    ((∃ u ∈ users, pyStripString (pyLower u.email)
          = pyStripString (pyLower email)) →
        register users name email password hashFn nextId
          = (RegisterOutcome.duplicateWarning, users))
    ∧ ((¬ ∃ u ∈ users, pyStripString (pyLower u.email)
          = pyStripString (pyLower email)) →
        register users name email password hashFn nextId
          = (RegisterOutcome.registered nextId,
             users ++ [⟨nextId, pyStripString name,
                        pyStripString (pyLower email), hashFn password⟩])) := by
  constructor
  · rintro ⟨u, hu, he⟩
    have hany : (users.any fun v => v.email == pyStripString (pyLower email))
        = true :=
      List.any_eq_true.2 ⟨u, hu, by rw [beq_iff_eq, ← hnorm u hu]; exact he⟩
    simp only [register, hany, if_true]
  · intro hne
    have hany : (users.any fun v => v.email == pyStripString (pyLower email))
        = false := by
      cases hca : users.any fun v => v.email == pyStripString (pyLower email)
      · rfl
      · exfalso
        obtain ⟨u, hu, hb⟩ := List.any_eq_true.1 hca
        have he : u.email = pyStripString (pyLower email) := by
          exact eq_of_beq hb
        exact hne ⟨u, hu, by rw [← he] at *; exact hnorm u hu⟩
    simp only [register, hany, Bool.false_eq_true, if_false]

/-- Witness for C9: the spec's collision scenario — after registering
`Test@x.com` (stored normalized), a second registration with `test@x.com`
fails and makes no state change. -/
theorem register_spec_witness :
    (∀ u ∈ (register [] "Alice" "Test@x.com" "pw1" hashDemo 1).2,
        pyStripString (pyLower u.email) = u.email)
    ∧ (∃ u ∈ (register [] "Alice" "Test@x.com" "pw1" hashDemo 1).2,
        pyStripString (pyLower u.email) = pyStripString (pyLower "test@x.com"))
    ∧ register (register [] "Alice" "Test@x.com" "pw1" hashDemo 1).2
        "Bob" "test@x.com" "pw2" hashDemo 2
        = (RegisterOutcome.duplicateWarning,
           (register [] "Alice" "Test@x.com" "pw1" hashDemo 1).2) :=
  ⟨by decide, by decide,
   (register_spec (register [] "Alice" "Test@x.com" "pw1" hashDemo 1).2
      "Bob" "test@x.com" "pw2" hashDemo 2 (by decide)).1 (by decide)⟩

end EcommerceShop
